import Mathlib

/-!
Verification of the command-line control plane of the Caliptra MCU emulator
(`src/emulator/cbinding/emulator.c`) against its natural-language specification.

The C program is shallowly embedded: pure helpers become Lean functions on
`List Char` / `Nat`, the stateful parts (terminal mode, signal handler, the
free-run loop, `main`) become explicit state passing and event traces.  Machine
integers are `Nat` with explicit `% 2^32` / `% 2^64` where the C code truncates
(LP64 model: `unsigned long` is 64 bits, `unsigned int` is 32 bits).  The libc
functions the program calls (`strtoul`, `sscanf`, `atoi`) are modelled by their
C-standard semantics, including `strtoul` clamping to `ULONG_MAX` on overflow.
-/

namespace Emu

/-! ## Character classes (C `isspace`, `isdigit`, `isxdigit`, default locale) -/

def cIsSpace (c : Char) : Bool :=
  c = ' ' || c = '\t' || c = '\n' || c = '\r' || c = '\x0b' || c = '\x0c'

def isHexDig (c : Char) : Bool :=
  c.isDigit || ('a' ≤ c && c ≤ 'f') || ('A' ≤ c && c ≤ 'F')

def digVal (c : Char) : Nat :=
  if c.isDigit then c.toNat - 48
  else if 'a' ≤ c && c ≤ 'f' then c.toNat - 87
  else c.toNat - 55

/-- Value of a digit string read most-significant-first in the given base. -/
def digitsVal (base : Nat) (l : List Char) : Nat :=
  l.foldl (fun a c => a * base + digVal c) 0

def ULONG_MAX : Nat := 2 ^ 64 - 1

def isDigBase (base : Nat) (c : Char) : Bool :=
  if base = 16 then isHexDig c else c.isDigit

/-! ## `strtoul` model (C standard semantics, LP64) -/

/-- Optional sign at the head of the subject sequence: returns
(negate?, rest). -/
def splitSign (l : List Char) : Bool × List Char :=
  match l with
  | c :: r => if c = '-' then (true, r) else if c = '+' then (false, r) else (false, l)
  | [] => (false, [])

def headIsHexDig (l : List Char) : Bool :=
  match l with
  | c :: _ => isHexDig c
  | [] => false

/-- In base 16, `strtoul` consumes a leading `0x`/`0X` only when a hex digit
follows it. -/
def dropHexMark (l : List Char) : List Char :=
  match l with
  | a :: b :: r => if a = '0' && (b = 'x' || b = 'X') && headIsHexDig r then r else l
  | _ => l

/-- `strtoul(l, NULL, base)` for base 10 or 16: skip spaces, optional sign,
optional `0x` mark (base 16), longest run of valid digits (value 0 when there
is none), clamp to `ULONG_MAX` on overflow, negate in unsigned arithmetic when
the sign was `-`. -/
def strtoulModel (base : Nat) (l : List Char) : Nat :=
  let l1 := l.dropWhile cIsSpace
  let sg := splitSign l1
  let l3 := if base = 16 then dropHexMark sg.2 else sg.2
  let digs := l3.takeWhile (isDigBase base)
  let v := min (digitsVal base digs) ULONG_MAX
  if sg.1 then (2 ^ 64 - v) % 2 ^ 64 else v

/-- `strncmp(str, "0x", 2) == 0 || strncmp(str, "0X", 2) == 0`. -/
def hex0xStart (l : List Char) : Bool :=
  match l with
  | a :: b :: _ => a = '0' && (b = 'x' || b = 'X')
  | _ => false

/-- `parse_hex_or_decimal` from emulator.c: `0x`/`0X`-led strings go through
`strtoul` base 16, everything else through `strtoul` base 10; the result is
truncated to `unsigned int`. -/
def parse_hex_or_decimal (l : List Char) : Nat :=
  (if hex0xStart l then strtoulModel 16 l else strtoulModel 10 l) % 2 ^ 32

/-- Modelled from the spec: "the base-16 interpretation of the remainder of
the string" — the value of the remainder read as a base-16 numeral, truncated
to the 32-bit result type (the most charitable reading of the claim). -/
def specBase16Interp (l : List Char) : Nat := digitsVal 16 l % 2 ^ 32

/-- Modelled from the spec: the base-10 interpretation of a string, truncated
to the 32-bit result type. -/
def specBase10Interp (l : List Char) : Nat := digitsVal 10 l % 2 ^ 32

/-! ## `sscanf(optarg, "%u.%u.%u", ...)` model

Each `%u` skips whitespace, accepts an optional sign, and requires at least
one decimal digit (conversion as by `strtoul` base 10, stored into an
`unsigned int`); each literal `.` must match exactly; matching stops at the
first failure and the call returns the number of completed conversions.
`main` only accepts a return of exactly 3, which is `some` below. -/

def scanU (l : List Char) : Option (Nat × List Char) :=
  let l1 := l.dropWhile cIsSpace
  let sg := splitSign l1
  let digs := sg.2.takeWhile Char.isDigit
  if digs.isEmpty then none
  else
    let v := min (digitsVal 10 digs) ULONG_MAX
    some ((if sg.1 then (2 ^ 64 - v) % 2 ^ 64 else v) % 2 ^ 32, sg.2.drop digs.length)

def sscanf3 (l : List Char) : Option (Nat × Nat × Nat) :=
  match scanU l with
  | none => none
  | some (a, r1) =>
    match r1 with
    | d1 :: r2 =>
      if d1 = '.' then
        match scanU r2 with
        | none => none
        | some (b, r3) =>
          match r3 with
          | d2 :: r4 =>
            if d2 = '.' then
              match scanU r4 with
              | none => none
              | some (c, _) => some (a, b, c)
            else none
          | [] => none
      else none
    | [] => none

/-- Modelled from the spec: "exactly three dot-separated non-negative
integers (major.minor.patch)" — a run of decimal digits, a dot, a run of
digits, a dot, a run of digits, and nothing else. -/
def specExactTriple (l : List Char) : Bool :=
  let a := l.takeWhile Char.isDigit
  let r1 := l.drop a.length
  !a.isEmpty &&
    match r1 with
    | d1 :: r2 =>
      d1 = '.' &&
        let b := r2.takeWhile Char.isDigit
        let r3 := r2.drop b.length
        !b.isEmpty &&
          match r3 with
          | d2 :: r4 =>
            d2 = '.' &&
              let c := r4.takeWhile Char.isDigit
              !c.isEmpty && (r4.drop c.length).isEmpty
          | [] => false
    | [] => false

/-- `atoi` model (used for the port flags): whitespace, optional sign, digit
run, base 10. -/
def atoiModel (l : List Char) : Int :=
  let l1 := l.dropWhile cIsSpace
  let sg := splitSign l1
  let v : Int := Int.ofNat (digitsVal 10 (sg.2.takeWhile Char.isDigit))
  if sg.1 then -v else v

/-! ## Configuration (`struct CEmulatorConfig` as initialized and filled by `main`) -/

/-- The 25 memory-layout override fields settable from the command line
(long options 140–164). -/
inductive Region
  | romOff | romSz | uartOff | uartSz | sramOff | sramSz | picOff
  | dccmOff | dccmSz | i3cOff | i3cSz | mciOff | mciSz
  | pflashOff | pflashSz | sflashOff | sflashSz
  | socOff | socSz | otpOff | otpSz | lcOff | lcSz | mboxOff | mboxSz
  deriving DecidableEq, Repr

structure CEmulatorConfig where
  rom_path : Option String := none
  firmware_path : Option String := none
  caliptra_rom_path : Option String := none
  caliptra_firmware_path : Option String := none
  soc_manifest_path : Option String := none
  otp_path : Option String := none
  log_dir_path : Option String := none
  gdb_port : Int := 0
  i3c_port : Int := 0
  trace_instr : Bool := false
  stdin_uart : Bool := true
  manufacturing_mode : Bool := false
  vendor_pk_hash : Option String := none
  owner_pk_hash : Option String := none
  streaming_boot_path : Option String := none
  primary_flash_image_path : Option String := none
  secondary_flash_image_path : Option String := none
  hw_revision_major : Nat := 2
  hw_revision_minor : Nat := 0
  hw_revision_patch : Nat := 0
  /-- every layout override starts at the sentinel -1 ("use default") -/
  overrides : Region → Int := fun _ => -1

/-- The initializer at the top of `main`. -/
def defaultCfg : CEmulatorConfig := {}

def setOverride (r : Region) (v : Int) (cfg : CEmulatorConfig) : CEmulatorConfig :=
  { cfg with overrides := Function.update cfg.overrides r v }

/-! ## Events and engine calls -/

/-- Calls into the opaque engine collaborator (the `emulator_*` C API). -/
inductive ECall
  | getSize | getAlignment | engInit | startI3c | isGdbMode | getGdbPort
  | runGdbServer | step | uartRxReady | sendUart (c : Nat) | drainUart
  | triggerExit | destroy
  deriving DecidableEq, Repr

/-- Observable events of the driver: stdout text, stderr text, the usage
dump, terminal raw-mode calls, and engine calls. -/
inductive Ev
  | out (s : String)
  | err (s : String)
  | usage
  | enableRaw
  | disableRaw
  | engine (c : ECall)
  deriving DecidableEq, Repr

def engineCalls (evs : List Ev) : List ECall :=
  evs.filterMap fun e => match e with | .engine c => some c | _ => none

def isOutput (e : Ev) : Bool :=
  match e with | .out _ => true | .err _ => true | .usage => true | _ => false

/-! ## Command-line options (the `getopt_long` case labels of `main`) -/

/-- One recognized option occurrence, as dispatched by the `switch` in
`main`'s `getopt_long` loop.  `unrecognized` is getopt's `?` result. -/
inductive COpt
  | rom (s : String) | firmware (s : String) | otp (s : String)
  | gdbPort (s : String) | logDir (s : String) | traceInstr
  | noStdinUart | caliptraRom (s : String) | caliptraFirmware (s : String)
  | socManifest (s : String) | i3cPort (s : String) | manufacturingMode
  | vendorPkHash (s : String) | ownerPkHash (s : String)
  | streamingBoot (s : String) | primaryFlashImage (s : String)
  | secondaryFlashImage (s : String) | hwRevision (s : String)
  | override (r : Region) (s : String)
  | help | version | unrecognized

def hwRevMsg : String := "Invalid hw-revision format. Expected format: major.minor.patch\n"

/-- One iteration of the option `switch`: either an updated config or an
early `return` with (exit code, events). -/
def applyOpt (o : COpt) (cfg : CEmulatorConfig) :
    Except (Nat × List Ev) CEmulatorConfig :=
  match o with
  | .rom s => .ok { cfg with rom_path := some s }
  | .firmware s => .ok { cfg with firmware_path := some s }
  | .otp s => .ok { cfg with otp_path := some s }
  | .gdbPort s => .ok { cfg with gdb_port := atoiModel s.data }
  | .logDir s => .ok { cfg with log_dir_path := some s }
  | .traceInstr => .ok { cfg with trace_instr := true }
  | .noStdinUart => .ok { cfg with stdin_uart := false }
  | .caliptraRom s => .ok { cfg with caliptra_rom_path := some s }
  | .caliptraFirmware s => .ok { cfg with caliptra_firmware_path := some s }
  | .socManifest s => .ok { cfg with soc_manifest_path := some s }
  | .i3cPort s => .ok { cfg with i3c_port := atoiModel s.data }
  | .manufacturingMode => .ok { cfg with manufacturing_mode := true }
  | .vendorPkHash s => .ok { cfg with vendor_pk_hash := some s }
  | .ownerPkHash s => .ok { cfg with owner_pk_hash := some s }
  | .streamingBoot s => .ok { cfg with streaming_boot_path := some s }
  | .primaryFlashImage s => .ok { cfg with primary_flash_image_path := some s }
  | .secondaryFlashImage s => .ok { cfg with secondary_flash_image_path := some s }
  | .hwRevision s =>
    match sscanf3 s.data with
    | some (a, b, c) =>
      .ok { cfg with hw_revision_major := a, hw_revision_minor := b,
                     hw_revision_patch := c }
    | none => .error (1, [.err hwRevMsg])
  | .override r s =>
    .ok (setOverride r (Int.ofNat (parse_hex_or_decimal s.data)) cfg)
  | .help => .error (0, [.usage])
  | .version => .error (0, [.out "Caliptra MCU Emulator (C binding) 1.0.0\n"])
  | .unrecognized => .error (1, [])

/-- The whole `getopt_long` loop. -/
def parseOpts : List COpt → CEmulatorConfig → Except (Nat × List Ev) CEmulatorConfig
  | [], cfg => .ok cfg
  | o :: rest, cfg =>
    match applyOpt o cfg with
    | .ok cfg2 => parseOpts rest cfg2
    | .error e => .error e

/-! ## Required-path validation (`main`, after the option loop) -/

inductive ReqField
  | rom | firmware | caliptraRom | caliptraFirmware | socManifest
  deriving DecidableEq, Repr, Fintype

/-- The exact per-field error strings printed by `main`. -/
def requiredMsg : ReqField → String
  | .rom => "Error: ROM path is required (--rom)\n"
  | .firmware => "Error: Firmware path is required (--firmware)\n"
  | .caliptraRom => "Error: Caliptra ROM path is required (--caliptra-rom)\n"
  | .caliptraFirmware => "Error: Caliptra firmware path is required (--caliptra-firmware)\n"
  | .socManifest => "Error: SoC manifest path is required (--soc-manifest)\n"

/-- The first of the five required paths that is still `NULL`, in the order
`main` checks them. -/
def firstMissing (cfg : CEmulatorConfig) : Option ReqField :=
  if cfg.rom_path = none then some .rom
  else if cfg.firmware_path = none then some .firmware
  else if cfg.caliptra_rom_path = none then some .caliptraRom
  else if cfg.caliptra_firmware_path = none then some .caliptraFirmware
  else if cfg.soc_manifest_path = none then some .socManifest
  else none

/-! ## Terminal controller (`enable_raw_mode` / `disable_raw_mode`, Unix branch)

The globals `original_termios` and `terminal_raw_mode`, plus the actual
terminal mode, form the state; `tcgetattr`/`tcsetattr` success is an
environment oracle (`ttyOk` — stdin is a real terminal; `setRawOk` /
`setRestoreOk` — whether the respective `tcsetattr` call succeeds). -/

/-- The subset of `struct termios` the program touches. -/
structure Termios where
  lflag : Nat
  iflag : Nat
  vmin : Nat
  vtime : Nat
  deriving DecidableEq, Repr

/-- Linux values of the cleared `c_lflag` bits:
`ECHO|ECHOE|ECHOK|ECHONL|ICANON|ISIG|IEXTEN`. -/
def lflagMask : Nat := 0x8 ||| 0x10 ||| 0x20 ||| 0x40 ||| 0x2 ||| 0x1 ||| 0x8000

/-- Linux values of the cleared `c_iflag` bits: `IXON|ICRNL|INLCR`. -/
def iflagMask : Nat := 0x400 ||| 0x100 ||| 0x40

/-- The raw mode built from the captured original
(`raw = original_termios` with the flag bits cleared, `VMIN=VTIME=0`). -/
def rawify (t : Termios) : Termios :=
  { lflag := t.lflag &&& (2 ^ 32 - 1 - lflagMask)
    iflag := t.iflag &&& (2 ^ 32 - 1 - iflagMask)
    vmin := 0
    vtime := 0 }

structure TermEnv where
  ttyOk : Bool
  setRawOk : Bool
  setRestoreOk : Bool

structure TermState where
  /-- the global `terminal_raw_mode` flag -/
  raw : Bool
  /-- the global `original_termios` -/
  saved : Termios
  /-- the actual mode of the host terminal -/
  term : Termios
  deriving DecidableEq, Repr

/-- `tcsetattr` calls made, with the mode that was requested. -/
inductive TEv
  | tcgetattr
  | tcsetattr (t : Termios)
  deriving DecidableEq, Repr

/-- `enable_raw_mode`: no-op if already raw; capture the original via
`tcgetattr` (failing means stdin is not a terminal — return); attempt to set
the raw mode, and record success in `terminal_raw_mode`. -/
def enable_raw_mode (e : TermEnv) (s : TermState) : TermState × List TEv :=
  if s.raw then (s, [])
  else if !e.ttyOk then (s, [.tcgetattr])
  else
    let saved := s.term
    let raw := rawify s.term
    if e.setRawOk then
      ({ raw := true, saved := saved, term := raw }, [.tcgetattr, .tcsetattr raw])
    else
      ({ s with saved := saved }, [.tcgetattr, .tcsetattr raw])

/-- `disable_raw_mode`: only acts when `terminal_raw_mode` is set; attempts
one `tcsetattr` back to the captured original, and clears the flag even when
that call fails (the source comment: avoid repeated attempts). -/
def disable_raw_mode (e : TermEnv) (s : TermState) : TermState × List TEv :=
  if s.raw then
    if e.setRestoreOk then
      ({ raw := false, saved := s.saved, term := s.saved }, [.tcsetattr s.saved])
    else
      ({ s with raw := false }, [.tcsetattr s.saved])
  else (s, [])

/-- `n` successive calls to `disable_raw_mode`, with the concatenated
`tcsetattr` trace. -/
def disableN (e : TermEnv) : Nat → TermState → TermState × List TEv
  | 0, s => (s, [])
  | n + 1, s =>
    let p := disable_raw_mode e s
    let q := disableN e n p.1
    (q.1, p.2 ++ q.2)

/-! ## Signal handler (`signal_handler`) -/

inductive Sig
  | sigint | sigterm | sighup | sigquit
  deriving DecidableEq, Repr

def sigName : Sig → String
  | .sigint => "SIGINT"
  | .sigterm => "SIGTERM"
  | .sighup => "SIGHUP"
  | .sigquit => "SIGQUIT"

/-- The handler body: print the received-signal message, restore the
terminal, then either request a cooperative exit (SIGINT, returning to the
interrupted code) or terminate the process with status 1 (all others).
Result: (events in order, exit status if the handler terminates the
process). -/
def signal_handler (sig : Sig) : List Ev × Option Nat :=
  let msg : Ev := .out ("\nReceived " ++ sigName sig ++ ", requesting exit...\n")
  match sig with
  | .sigint => ([msg, .disableRaw, .engine .triggerExit], none)
  | _ => ([msg, .disableRaw], some 1)

/-- Modelled from the spec: "terminal is restored before the process's next
observable output" — in the handler's event list, no output event occurs
before the first `disableRaw`. -/
def restoreBeforeOutput (evs : List Ev) : Bool :=
  (evs.takeWhile fun e => e ≠ Ev.disableRaw).all fun e => !isOutput e

/-! ## Free-run loop (`free_run`) and `main`

The engine is an oracle: `actions i` is what `emulator_step` returns at the
i-th loop iteration, `rxReady i` what `emulator_uart_rx_ready` would answer
there, `uartOut i` the bytes drained after that step, and `inputs k` the byte
the k-th console poll reads (`none` when `read` returns no data).  The C
`while(1)` loop is run on explicit fuel (`fuelOut` marks the truncation
artifact). -/

inductive CStepAction
  | Continue | Break | ExitSuccess | ExitFailure

structure Env where
  engineAllocOk : Bool := true
  uartAllocOk : Bool := true
  initOk : Bool := true
  i3cOk : Bool := true
  isGdb : Bool := false
  gdbOk : Bool := true
  actions : Nat → CStepAction := fun _ => .ExitSuccess
  rxReady : Nat → Bool := fun _ => false
  inputs : Nat → Option Nat := fun _ => none
  uartOut : Nat → List Nat := fun _ => []
  finalOut : List Nat := []
  fuel : Nat := 8

inductive FRReason
  | ctrlC | engineBreak | exitSuccess | exitFailure | allocFail | fuelOut
  deriving DecidableEq, Repr

structure FRResult where
  events : List Ev
  /-- (iteration, byte) pairs actually read from the console -/
  consumed : List (Nat × Nat)
  /-- (iteration, byte) pairs forwarded to `emulator_send_uart_char` -/
  sent : List (Nat × Nat)
  /-- number of `emulator_step` calls performed -/
  steps : Nat
  reason : FRReason

/-- Backspace (127) is normalized to ASCII backspace (8). -/
def translate (c : Nat) : Nat := if c = 127 then 8 else c

def uartStr (l : List Nat) : String := String.mk (l.map Char.ofNat)

structure PollOut where
  consumed : List (Nat × Nat)
  sent : List (Nat × Nat)
  events : List Ev
  nextPoll : Nat
  brk : Bool

/-- The input-polling block at the top of a loop iteration: read a byte if
one is pending; Ctrl-C (3) breaks out of the loop; otherwise normalize
backspace, query `emulator_uart_rx_ready`, and forward the byte only when
the engine is ready — an unready engine simply loses the byte. -/
def pollStep (env : Env) (iter pollIdx : Nat) : PollOut :=
  match env.inputs pollIdx with
  | none => ⟨[], [], [], pollIdx + 1, false⟩
  | some c =>
    if c = 3 then ⟨[(iter, c)], [], [], pollIdx + 1, true⟩
    else
      let c2 := translate c
      if env.rxReady iter then
        ⟨[(iter, c)], [(iter, c2)],
          [.engine .uartRxReady, .engine (.sendUart c2)], pollIdx + 1, false⟩
      else
        ⟨[(iter, c)], [], [.engine .uartRxReady], pollIdx + 1, false⟩

/-- The `while(1)` body of `free_run`: poll input every 100th step-count,
execute one `emulator_step`, drain UART output to stderr, and dispatch on
the step action (`Continue` increments the step count; the three stop
actions restore the terminal, free the buffer and return). -/
def freeRunLoop (env : Env) : Nat → Nat → Nat → Nat → FRResult
  | 0, _, _, _ => ⟨[], [], [], 0, .fuelOut⟩
  | fuel + 1, iter, stepCount, pollIdx =>
    let p : PollOut :=
      if stepCount % 100 = 0 then pollStep env iter pollIdx
      else ⟨[], [], [], pollIdx, false⟩
    if p.brk then
      ⟨p.events ++ [.disableRaw], p.consumed, p.sent, 0, .ctrlC⟩
    else
      let outBytes := env.uartOut iter
      let evOut : List Ev := if outBytes.isEmpty then [] else [.err (uartStr outBytes)]
      let pre := p.events ++ [.engine .step] ++ evOut
      match env.actions iter with
      | .Continue =>
        let r := freeRunLoop env fuel (iter + 1) (stepCount + 1) p.nextPoll
        ⟨pre ++ r.events, p.consumed ++ r.consumed, p.sent ++ r.sent,
          r.steps + 1, r.reason⟩
      | .Break =>
        ⟨pre ++ [.out "\nEmulator hit breakpoint\n", .disableRaw],
          p.consumed, p.sent, 1, .engineBreak⟩
      | .ExitSuccess =>
        ⟨pre ++ [.out "\nEmulator finished successfully\n", .disableRaw],
          p.consumed, p.sent, 1, .exitSuccess⟩
      | .ExitFailure =>
        ⟨pre ++ [.out "\nEmulator exited with failure\n", .disableRaw],
          p.consumed, p.sent, 1, .exitFailure⟩

/-- `free_run`: banner, enable raw mode, allocate the 1024-byte UART scratch
buffer (failure restores the terminal and returns without any step), then
the loop. -/
def freeRun (env : Env) : FRResult :=
  let pre : List Ev :=
    [.out "Running emulator in normal mode...\n",
     .out "Console input enabled - type characters to send to UART RX\n",
     .enableRaw]
  if !env.uartAllocOk then
    { events := pre ++ [.err "Failed to allocate UART buffer\n", .disableRaw],
      consumed := [], sent := [], steps := 0, reason := .allocFail }
  else
    let r := freeRunLoop env env.fuel 0 0 0
    { r with
        events := pre ++ [.out "Allocated UART buffer: 1024 bytes\n"] ++ r.events }

structure MainResult where
  exitCode : Nat
  events : List Ev
  fr : Option FRResult := none

/-- `main` after a completed option loop: required-path validation, signal
installation, engine allocation/initialization, optional I3C controller
start, mode dispatch (one blocking GDB-server call, or the free-run loop),
final UART drain, terminal restore, engine destroy. -/
def mainFromConfig (cfg : CEmulatorConfig) (env : Env) : MainResult :=
  match firstMissing cfg with
  | some f => { exitCode := 1, events := [.err (requiredMsg f), .usage] }
  | none =>
    let evs0 : List Ev := [.engine .getSize, .engine .getAlignment]
    if !env.engineAllocOk then
      { exitCode := 1, events := evs0 ++ [.err "Failed to allocate memory\n"] }
    else
      let evs1 := evs0 ++ [.out "Allocated bytes for emulator\n", .engine .engInit]
      if !env.initOk then
        { exitCode := 1, events := evs1 ++ [.err "Failed to initialize emulator\n"] }
      else
        let rest : List Ev → MainResult := fun evs2 =>
          let evs3 := evs2 ++ [.out "Emulator initialized successfully\n",
                               .engine .isGdbMode]
          let gdbTail : Ev :=
            if env.gdbOk then .out "GDB session completed successfully\n"
            else .out "GDB session failed with error\n"
          let afterMode : List Ev × Option FRResult :=
            if env.isGdb then
              (evs3 ++ [.engine .getGdbPort, .out "GDB server available\n",
                        .out "Starting GDB server\n", .engine .runGdbServer,
                        gdbTail], none)
            else
              let r := freeRun env
              (evs3 ++ r.events, some r)
          let evs5 := afterMode.1 ++ [.engine .drainUart] ++
            (if env.finalOut.isEmpty then [] else [.err "Final UART output\n"])
          { exitCode := 0
            events := evs5 ++ [.disableRaw, .engine .destroy,
                               .out "Emulator cleaned up\n"]
            fr := afterMode.2 }
        if cfg.i3c_port ≠ 0 then
          let evs2 := evs1 ++ [.out "Starting I3C controller...\n", .engine .startI3c]
          if !env.i3cOk then
            { exitCode := 1,
              events := evs2 ++ [.err "Failed to start I3C controller\n",
                                 .engine .destroy] }
          else rest evs2
        else rest evs1

/-- The whole of `main` on an already-tokenized option list. -/
def mainModel (opts : List COpt) (env : Env) : MainResult :=
  match parseOpts opts defaultCfg with
  | .error (c, evs) => { exitCode := c, events := evs }
  | .ok cfg => mainFromConfig cfg env

/-- When `emulator_uart_rx_ready` answers `true` at the iteration a byte was
read (and the byte is not Ctrl-C), the byte is forwarded after backspace
normalization; in every other case it is lost. -/
def sendOf (env : Env) (p : Nat × Nat) : Option (Nat × Nat) :=
  if p.2 = 3 then none
  else if env.rxReady p.1 then some (p.1, translate p.2) else none

/-! ## Concrete fixtures used by counterexamples and witnesses -/

/-- All five required paths supplied, nothing else. -/
def optsAll : List COpt :=
  [.rom "r", .firmware "f", .caliptraRom "cr", .caliptraFirmware "cf",
   .socManifest "sm"]

/-- The configuration `optsAll` builds. -/
def cfgAll : CEmulatorConfig :=
  { rom_path := some "r", firmware_path := some "f",
    caliptra_rom_path := some "cr", caliptra_firmware_path := some "cf",
    soc_manifest_path := some "sm" }

/-- `optsAll` plus a ROM-offset override whose string has an invalid
decimal digit. -/
def optsC4 : List COpt :=
  [.rom "r", .firmware "f", .caliptraRom "cr", .caliptraFirmware "cf",
   .socManifest "sm", .override .romOff "12z4"]

/-- Benign environment: every allocation and engine call succeeds, the first
step already reports `ExitSuccess`, no console input, no UART output. -/
def envOk : Env := {}

/-- Environment in which the UART scratch-buffer `malloc` fails. -/
def envUartFail : Env := { uartAllocOk := false }

/-- GDB mode, and the blocking GDB-server call fails. -/
def envGdbFail : Env := { isGdb := true, gdbOk := false }

/-- One console byte (65) pending at every poll, engine never rx-ready. -/
def envDrop : Env := { inputs := fun _ => some 65 }

end Emu

namespace Emu

example : parse_hex_or_decimal "0x40000000".data = 0x40000000 := by decide
example : parse_hex_or_decimal "1000".data = 1000 := by decide
example : parse_hex_or_decimal "0X1f".data = 31 := by decide
example : parse_hex_or_decimal "12z4".data = 12 := by decide
example : parse_hex_or_decimal "0x10000000000000000".data = 4294967295 := by decide
example : sscanf3 "2.0.0".data = some (2, 0, 0) := by decide
example : sscanf3 "1.2.3.4".data = some (1, 2, 3) := by decide
example : sscanf3 "1.2".data = none := by decide
example : sscanf3 "1..2".data = none := by decide
example : specExactTriple "1.2.3.4".data = false := by decide
example : specExactTriple "2.0.0".data = true := by decide

end Emu

namespace Emu

/-! ## Helper lemmas -/

lemma isDigBase16 : isDigBase 16 = isHexDig := by
  funext c; simp [isDigBase]

lemma isDigBase10 : isDigBase 10 = fun c => c.isDigit := by
  funext c; simp [isDigBase]

lemma isHexDig_of_digit {c : Char} (h : c.isDigit = true) : isHexDig c = true := by
  simp [isHexDig, h]

lemma cIsSpace_eq_false {c : Char} (h : isHexDig c = true) : cIsSpace c = false := by
  cases hb : cIsSpace c with
  | false => rfl
  | true =>
    exfalso
    simp only [cIsSpace, Bool.or_eq_true, decide_eq_true_eq] at hb
    rcases hb with ((((h1 | h1) | h1) | h1) | h1) | h1 <;> subst h1 <;>
      exact absurd h (by decide)

lemma hex_ne_dash {c : Char} (h : isHexDig c = true) : c ≠ '-' := by
  intro h1; subst h1; exact absurd h (by decide)

lemma hex_ne_plus {c : Char} (h : isHexDig c = true) : c ≠ '+' := by
  intro h1; subst h1; exact absurd h (by decide)

lemma digit_ne_x {c : Char} (h : c.isDigit = true) : c ≠ 'x' := by
  intro h1; subst h1; exact absurd h (by decide)

lemma digit_ne_X {c : Char} (h : c.isDigit = true) : c ≠ 'X' := by
  intro h1; subst h1; exact absurd h (by decide)

lemma splitSign_no_sign {c : Char} {t : List Char} (h1 : c ≠ '-') (h2 : c ≠ '+') :
    splitSign (c :: t) = (false, c :: t) := by
  simp [splitSign, h1, h2]

lemma all_takeWhile {α : Type} {p : α → Bool} :
    ∀ {l : List α}, l.all p = true → l.takeWhile p = l := by
  intro l
  induction l with
  | nil => intro _; rfl
  | cons c t ih =>
    intro h
    simp only [List.all_cons, Bool.and_eq_true] at h
    simp [List.takeWhile_cons, h.1, ih h.2]

lemma takeWhile_append_stop {α : Type} {p : α → Bool} :
    ∀ {a b : List α}, a.all p = true →
      (∀ c, b.head? = some c → p c = false) → (a ++ b).takeWhile p = a := by
  intro a
  induction a with
  | nil =>
    intro b _ hb
    cases b with
    | nil => rfl
    | cons c t => simp [List.takeWhile_cons, hb c rfl]
  | cons c t ih =>
    intro b hall hb
    simp only [List.all_cons, Bool.and_eq_true] at hall
    simp [List.takeWhile_cons, hall.1, ih hall.2 hb]

lemma hex0xStart_digits {a : List Char} (hall : a.all Char.isDigit = true) :
    hex0xStart a = false := by
  match a with
  | [] => rfl
  | [d] => rfl
  | d :: e :: t =>
    simp only [List.all_cons, Bool.and_eq_true] at hall
    have hx := digit_ne_x hall.2.1
    have hX := digit_ne_X hall.2.1
    simp [hex0xStart, hx, hX]

lemma strtoul16_marked {c : Char} {t : List Char} {b : Char}
    (hall : (c :: t).all isHexDig = true) (hb : b = 'x' ∨ b = 'X') :
    strtoulModel 16 ('0' :: b :: c :: t) = min (digitsVal 16 (c :: t)) ULONG_MAX := by
  have hc : isHexDig c = true := by
    simp only [List.all_cons, Bool.and_eq_true] at hall; exact hall.1
  have htw : (c :: t).takeWhile isHexDig = c :: t := all_takeWhile hall
  rcases hb with rfl | rfl <;>
  · unfold strtoulModel
    rw [List.dropWhile_cons]
    simp only [show cIsSpace '0' = false from rfl, Bool.false_eq_true, if_false]
    rw [splitSign_no_sign (by decide) (by decide)]
    simp only [if_pos rfl, dropHexMark, headIsHexDig, hc]
    simp [isDigBase16, htw]

lemma strtoul10_digits_junk {a b : List Char} (hne : a ≠ [])
    (hall : a.all Char.isDigit = true)
    (hb : ∀ c, b.head? = some c → c.isDigit = false) :
    strtoulModel 10 (a ++ b) = min (digitsVal 10 a) ULONG_MAX := by
  obtain ⟨c, t, rfl⟩ := List.exists_cons_of_ne_nil hne
  have hc : c.isDigit = true := by
    simp only [List.all_cons, Bool.and_eq_true] at hall; exact hall.1
  have hhex := isHexDig_of_digit hc
  have hsp : cIsSpace c = false := cIsSpace_eq_false hhex
  have htw : ((c :: t) ++ b).takeWhile (fun x => x.isDigit) = c :: t := by
    have := takeWhile_append_stop (p := fun x => x.isDigit) (a := c :: t) (b := b)
    exact this (by simpa using hall) hb
  unfold strtoulModel
  rw [List.cons_append, List.dropWhile_cons]
  simp only [hsp, Bool.false_eq_true, if_false]
  rw [splitSign_no_sign (hex_ne_dash hhex) (hex_ne_plus hhex)]
  simp only [show ¬((10 : Nat) = 16) by decide, if_false, isDigBase10]
  rw [← List.cons_append, htw]
  simp

/-! ## Claim C2 -/

/-- C2: the claim that a `0x`-prefixed override string parses to "the base-16
interpretation of the remainder" fails at `0x10000000000000000`
(remainder value 2^64): `strtoul` clamps to `ULONG_MAX`, so the function
returns 4294967295, while the remainder's base-16 interpretation is 2^64
(0 after truncation to the 32-bit result type). -/
theorem C2_counterexample :
    parse_hex_or_decimal "0x10000000000000000".data = 4294967295 ∧
    specBase16Interp "10000000000000000".data = 0 ∧
    digitsVal 16 "10000000000000000".data = 2 ^ 64 ∧
    parse_hex_or_decimal "0x10000000000000000".data ≠
      specBase16Interp "10000000000000000".data ∧
    parse_hex_or_decimal "0x10000000000000000".data ≠
      digitsVal 16 "10000000000000000".data := by
  decide

/-- C2 (amended): for override strings `0x`/`0X` followed by a nonempty run
of hex digits whose value is below 2^64 (no `strtoul` clamping), the parsed
value is the base-16 interpretation of the remainder truncated to 32 bits;
and every string that is a nonempty run of decimal digits with value below
2^64 parses to its base-10 interpretation truncated to 32 bits. -/
theorem C2_amended :
    (∀ l : List Char, l ≠ [] → l.all isHexDig = true → digitsVal 16 l < 2 ^ 64 →
      parse_hex_or_decimal ('0' :: 'x' :: l) = specBase16Interp l ∧
      parse_hex_or_decimal ('0' :: 'X' :: l) = specBase16Interp l) ∧
    (∀ l : List Char, l ≠ [] → l.all Char.isDigit = true →
      digitsVal 10 l < 2 ^ 64 →
      parse_hex_or_decimal l = specBase10Interp l) := by
  constructor
  · intro l hne hall hlt
    obtain ⟨c, t, rfl⟩ := List.exists_cons_of_ne_nil hne
    have hmin : min (digitsVal 16 (c :: t)) ULONG_MAX = digitsVal 16 (c :: t) :=
      min_eq_left (by unfold ULONG_MAX; omega)
    constructor
    · unfold parse_hex_or_decimal
      rw [show hex0xStart ('0' :: 'x' :: c :: t) = true from rfl]
      rw [if_pos rfl, strtoul16_marked hall (Or.inl rfl), hmin]
      rfl
    · unfold parse_hex_or_decimal
      rw [show hex0xStart ('0' :: 'X' :: c :: t) = true from rfl]
      rw [if_pos rfl, strtoul16_marked hall (Or.inr rfl), hmin]
      rfl
  · intro l hne hall hlt
    have hmin : min (digitsVal 10 l) ULONG_MAX = digitsVal 10 l :=
      min_eq_left (by unfold ULONG_MAX; omega)
    have h0x : hex0xStart l = false := hex0xStart_digits hall
    have hs := strtoul10_digits_junk (b := []) hne hall (by intro c h; cases h)
    rw [List.append_nil] at hs
    unfold parse_hex_or_decimal
    rw [h0x]
    simp only [Bool.false_eq_true, if_false]
    rw [hs, hmin]
    rfl

/-- C2 witness for the amended theorem at concrete inputs. -/
theorem C2_amended_witness :
    parse_hex_or_decimal "0x1f".data = specBase16Interp "1f".data ∧
    parse_hex_or_decimal "1000".data = specBase10Interp "1000".data := by
  constructor
  · exact (C2_amended.1 "1f".data (by decide) (by decide) (by decide)).1
  · exact C2_amended.2 "1000".data (by decide) (by decide) (by decide)

end Emu

namespace Emu

/-! ## Claim C4 -/

/-- C4: the claim that invalid digits yield a parse error is false —
`parse_hex_or_decimal` never reports an error.  On `--rom-offset 12z4`
(with the five required paths supplied) the run proceeds normally: the
override silently becomes 12 (the valid prefix), no stderr message is
printed, and the process exits 0. -/
theorem C4_counterexample :
    parse_hex_or_decimal "12z4".data = 12 ∧
    (parseOpts optsC4 defaultCfg).toOption.map (fun c => c.overrides .romOff)
      = some 12 ∧
    (mainModel optsC4 envOk).exitCode = 0 ∧
    ((mainModel optsC4 envOk).events.all fun e =>
      !(match e with | .err _ => true | _ => false)) = true := by
  decide

/-- C4 (amended): a numeric override string with a digit invalid for the
chosen base is parsed silently, never producing an error against the flag:
the stored value is the interpretation of the longest valid digit run before
the first invalid character (`strtoul` longest-prefix semantics). -/
theorem C4_amended :
    (∀ (r : Region) (s : String) (cfg : CEmulatorConfig),
      applyOpt (.override r s) cfg =
        .ok (setOverride r (Int.ofNat (parse_hex_or_decimal s.data)) cfg)) ∧
    (∀ a b : List Char, a ≠ [] → a.all Char.isDigit = true →
      digitsVal 10 a < 2 ^ 64 → hex0xStart (a ++ b) = false →
      (∀ c, b.head? = some c → c.isDigit = false) →
      parse_hex_or_decimal (a ++ b) = digitsVal 10 a % 2 ^ 32) := by
  constructor
  · intro r s cfg; rfl
  · intro a b hne hall hlt h0x hb
    have hmin : min (digitsVal 10 a) ULONG_MAX = digitsVal 10 a :=
      min_eq_left (by unfold ULONG_MAX; omega)
    unfold parse_hex_or_decimal
    rw [h0x]
    simp only [Bool.false_eq_true, if_false]
    rw [strtoul10_digits_junk hne hall hb, hmin]

/-- C4 amended-theorem witness at concrete inputs. -/
theorem C4_amended_witness :
    applyOpt (.override .romOff "12z4") defaultCfg =
      .ok (setOverride .romOff (Int.ofNat (parse_hex_or_decimal "12z4".data))
        defaultCfg) ∧
    parse_hex_or_decimal ("12".data ++ "z4".data) = digitsVal 10 "12".data % 2 ^ 32 := by
  constructor
  · exact C4_amended.1 .romOff "12z4" defaultCfg
  · exact C4_amended.2 "12".data "z4".data (by decide) (by decide) (by decide)
      (by decide) (by decide)

end Emu

namespace Emu

/-! ## Claim C3: lemmas about `scanU` and option-loop errors -/

lemma drop_takeWhile_length {α : Type} (p : α → Bool) :
    ∀ l : List α, l.drop (l.takeWhile p).length = l.dropWhile p := by
  intro l
  induction l with
  | nil => rfl
  | cons c t ih =>
    rw [List.takeWhile_cons, List.dropWhile_cons]
    by_cases h : p c = true
    · simp [h, ih]
    · simp [h]

lemma head_dropWhile_false {α : Type} (p : α → Bool) :
    ∀ l : List α, ∀ c, (l.dropWhile p).head? = some c → p c = false := by
  intro l
  induction l with
  | nil => intro c h; cases h
  | cons a t ih =>
    intro c h
    rw [List.dropWhile_cons] at h
    by_cases hp : p a = true
    · rw [if_pos hp] at h; exact ih c h
    · rw [if_neg hp] at h
      simp only [List.head?_cons, Option.some.injEq] at h
      subst h
      exact eq_false_of_ne_true hp

lemma scanU_run {a r : List Char} (hne : a ≠ []) (hall : a.all Char.isDigit = true)
    (hr : ∀ c, r.head? = some c → c.isDigit = false) :
    scanU (a ++ r) = some (min (digitsVal 10 a) ULONG_MAX % 2 ^ 32, r) := by
  obtain ⟨c, t, rfl⟩ := List.exists_cons_of_ne_nil hne
  have hc : c.isDigit = true := by
    simp only [List.all_cons, Bool.and_eq_true] at hall; exact hall.1
  have hhex := isHexDig_of_digit hc
  have htw : ((c :: t) ++ r).takeWhile Char.isDigit = c :: t :=
    takeWhile_append_stop hall hr
  unfold scanU
  rw [List.cons_append, List.dropWhile_cons]
  simp only [cIsSpace_eq_false hhex, Bool.false_eq_true, if_false]
  rw [splitSign_no_sign (hex_ne_dash hhex) (hex_ne_plus hhex)]
  simp only [← List.cons_append, htw, List.isEmpty_cons, Bool.false_eq_true,
    if_false, List.drop_left]

lemma applyOpt_error_engine {o : COpt} {cfg : CEmulatorConfig} {c : Nat}
    {evs : List Ev} (h : applyOpt o cfg = .error (c, evs)) :
    engineCalls evs = [] := by
  cases o <;> simp only [applyOpt] at h
  case hwRevision s =>
    cases hs : sscanf3 s.data with
    | none =>
      rw [hs] at h
      simp only [Except.error.injEq, Prod.mk.injEq] at h
      rw [← h.2]; rfl
    | some v =>
      obtain ⟨a, b, c2⟩ := v
      rw [hs] at h
      exact Except.noConfusion h
  case help =>
    simp only [Except.error.injEq, Prod.mk.injEq] at h
    rw [← h.2]; rfl
  case version =>
    simp only [Except.error.injEq, Prod.mk.injEq] at h
    rw [← h.2]; rfl
  case unrecognized =>
    simp only [Except.error.injEq, Prod.mk.injEq] at h
    rw [← h.2]; rfl
  all_goals exact Except.noConfusion h

lemma parseOpts_error_engine :
    ∀ (opts : List COpt) (cfg : CEmulatorConfig) (c : Nat) (evs : List Ev),
      parseOpts opts cfg = .error (c, evs) → engineCalls evs = [] := by
  intro opts
  induction opts with
  | nil => intro cfg c evs h; exact Except.noConfusion h
  | cons o rest ih =>
    intro cfg c evs h
    unfold parseOpts at h
    cases ha : applyOpt o cfg with
    | ok cfg2 => rw [ha] at h; exact ih cfg2 c evs h
    | error e =>
      rw [ha] at h
      simp only [Except.error.injEq] at h
      obtain ⟨e1, e2⟩ := e
      simp only [Prod.mk.injEq] at h
      rw [h.2] at ha
      exact applyOpt_error_engine ha

lemma all_of_takeWhile {α : Type} (p : α → Bool) :
    ∀ l : List α, (l.takeWhile p).all p = true := by
  intro l
  induction l with
  | nil => rfl
  | cons c t ih =>
    rw [List.takeWhile_cons]
    by_cases h : p c = true
    · simp [h, ih]
    · simp [h]

lemma ne_nil_of_isEmpty_false {α : Type} {l : List α} (h : l.isEmpty = false) :
    l ≠ [] := by
  intro e; subst e; exact Bool.noConfusion h

lemma eq_nil_of_isEmpty_true {α : Type} {l : List α} (h : l.isEmpty = true) :
    l = [] := by
  cases l with
  | nil => rfl
  | cons c t => exact Bool.noConfusion h

lemma specTriple_accepted :
    ∀ l : List Char, specExactTriple l = true → (sscanf3 l).isSome = true := by
  intro l h
  unfold specExactTriple at h
  simp only [] at h
  rw [show l.drop (l.takeWhile Char.isDigit).length = l.dropWhile Char.isDigit from
    drop_takeWhile_length Char.isDigit l] at h
  cases hr1 : l.dropWhile Char.isDigit with
  | nil => rw [hr1] at h; simp at h
  | cons d1 r2 =>
    rw [hr1] at h
    simp only [Bool.and_eq_true, Bool.not_eq_true', decide_eq_true_eq] at h
    obtain ⟨ha, hd1, h⟩ := h
    rw [show r2.drop (r2.takeWhile Char.isDigit).length = r2.dropWhile Char.isDigit
      from drop_takeWhile_length Char.isDigit r2] at h
    cases hr3 : r2.dropWhile Char.isDigit with
    | nil => rw [hr3] at h; simp at h
    | cons d2 r4 =>
      rw [hr3] at h
      simp only [Bool.and_eq_true, Bool.not_eq_true', decide_eq_true_eq] at h
      obtain ⟨hb, hd2, hc, hr5⟩ := h
      subst hd1
      subst hd2
      have hl1 : l.takeWhile Char.isDigit ++ ('.' :: r2) = l := by
        rw [← hr1]; exact List.takeWhile_append_dropWhile _ _
      have hs1 : scanU l =
          some (min (digitsVal 10 (l.takeWhile Char.isDigit)) ULONG_MAX % 2 ^ 32,
            '.' :: r2) := by
        conv_lhs => rw [← hl1]
        exact scanU_run (ne_nil_of_isEmpty_false ha) (all_of_takeWhile _ _)
          (fun c hc => by
            simp only [List.head?_cons, Option.some.injEq] at hc
            rw [← hc]; decide)
      have hl2 : r2.takeWhile Char.isDigit ++ ('.' :: r4) = r2 := by
        rw [← hr3]; exact List.takeWhile_append_dropWhile _ _
      have hs2 : scanU r2 =
          some (min (digitsVal 10 (r2.takeWhile Char.isDigit)) ULONG_MAX % 2 ^ 32,
            '.' :: r4) := by
        conv_lhs => rw [← hl2]
        exact scanU_run (ne_nil_of_isEmpty_false hb) (all_of_takeWhile _ _)
          (fun c hc => by
            simp only [List.head?_cons, Option.some.injEq] at hc
            rw [← hc]; decide)
      have hdw3 : r4.dropWhile Char.isDigit = [] := by
        rw [← drop_takeWhile_length Char.isDigit r4]
        exact eq_nil_of_isEmpty_true hr5
      have hl3 : r4.takeWhile Char.isDigit ++ ([] : List Char) = r4 := by
        rw [← hdw3]; exact List.takeWhile_append_dropWhile _ _
      have hs3 : scanU r4 =
          some (min (digitsVal 10 (r4.takeWhile Char.isDigit)) ULONG_MAX % 2 ^ 32,
            ([] : List Char)) := by
        conv_lhs => rw [← hl3]
        exact scanU_run (ne_nil_of_isEmpty_false hc) (all_of_takeWhile _ _)
          (fun c hc2 => by cases hc2)
      simp [sscanf3, hs1, hs2, hs3]

/-- C3: the hardware-revision parser is not "accept iff exactly three
dot-separated integers": `sscanf` ignores trailing input, so `1.2.3.4`
(four dot-separated integers) is accepted as revision (1, 2, 3) and the
option loop continues instead of erroring. -/
theorem C3_counterexample :
    sscanf3 "1.2.3.4".data = some (1, 2, 3) ∧
    specExactTriple "1.2.3.4".data = false ∧
    (applyOpt (.hwRevision "1.2.3.4") defaultCfg).toOption.map
      (fun c => (c.hw_revision_major, c.hw_revision_minor, c.hw_revision_patch))
      = some (1, 2, 3) := by
  decide

/-- C3 (amended): every string of exactly three dot-separated digit runs is
accepted, but acceptance extends to any string that merely begins with three
`%u.%u.%u`-matchable fields (e.g. `1.2.3.4`); any string in which the three
conversions cannot all be completed makes the option loop stop with the
format-error message and exit code 1, before any engine operation. -/
theorem C3_amended :
    (∀ l : List Char, specExactTriple l = true → (sscanf3 l).isSome = true) ∧
    (∀ (s : String) (cfg : CEmulatorConfig), sscanf3 s.data = none →
      applyOpt (.hwRevision s) cfg = .error (1, [.err hwRevMsg])) ∧
    (∀ (opts : List COpt) (env : Env) (c : Nat) (evs : List Ev),
      parseOpts opts defaultCfg = .error (c, evs) →
      mainModel opts env = ⟨c, evs, none⟩ ∧ engineCalls evs = []) := by
  refine ⟨specTriple_accepted, ?_, ?_⟩
  · intro s cfg h
    simp only [applyOpt]
    rw [h]
  · intro opts env c evs h
    constructor
    · unfold mainModel
      rw [h]
    · exact parseOpts_error_engine opts defaultCfg c evs h

/-- C3 amended-theorem witness at concrete inputs. -/
theorem C3_amended_witness :
    (sscanf3 "2.0.0".data).isSome = true ∧
    applyOpt (.hwRevision "abc") defaultCfg = .error (1, [.err hwRevMsg]) ∧
    mainModel [.hwRevision "abc"] envOk = ⟨1, [.err hwRevMsg], none⟩ ∧
    engineCalls [.err hwRevMsg] = [] := by
  refine ⟨C3_amended.1 "2.0.0".data (by decide),
    C3_amended.2.1 "abc" defaultCfg (by decide), ?_, ?_⟩
  · exact (C3_amended.2.2 [.hwRevision "abc"] envOk 1 [.err hwRevMsg] rfl).1
  · exact (C3_amended.2.2 [.hwRevision "abc"] envOk 1 [.err hwRevMsg] rfl).2

end Emu

namespace Emu

/-! ## Claim C1 -/

/-- C1 (confirmed): whenever the option loop completes and any of the five
required paths is still unsupplied, `main` prints the (distinct, field-named)
error message for the first missing field plus the usage text, exits 1, and
performs no engine call at all (in particular no size/alignment/initialize). -/
theorem C1_missing_required_path :
    ∀ (opts : List COpt) (env : Env) (cfg : CEmulatorConfig),
      parseOpts opts defaultCfg = .ok cfg →
      (cfg.rom_path = none ∨ cfg.firmware_path = none ∨
       cfg.caliptra_rom_path = none ∨ cfg.caliptra_firmware_path = none ∨
       cfg.soc_manifest_path = none) →
      ∃ f : ReqField,
        mainModel opts env = ⟨1, [.err (requiredMsg f), .usage], none⟩ ∧
        engineCalls [Ev.err (requiredMsg f), Ev.usage] = [] ∧
        (∀ g h : ReqField, requiredMsg g = requiredMsg h → g = h) := by
  intro opts env cfg hp hmiss
  have hf : ∃ f, firstMissing cfg = some f := by
    unfold firstMissing
    by_cases h1 : cfg.rom_path = none
    · exact ⟨.rom, by rw [if_pos h1]⟩
    · by_cases h2 : cfg.firmware_path = none
      · exact ⟨.firmware, by rw [if_neg h1, if_pos h2]⟩
      · by_cases h3 : cfg.caliptra_rom_path = none
        · exact ⟨.caliptraRom, by rw [if_neg h1, if_neg h2, if_pos h3]⟩
        · by_cases h4 : cfg.caliptra_firmware_path = none
          · exact ⟨.caliptraFirmware, by rw [if_neg h1, if_neg h2, if_neg h3, if_pos h4]⟩
          · by_cases h5 : cfg.soc_manifest_path = none
            · exact ⟨.socManifest,
                by rw [if_neg h1, if_neg h2, if_neg h3, if_neg h4, if_pos h5]⟩
            · rcases hmiss with h | h | h | h | h
              · exact absurd h h1
              · exact absurd h h2
              · exact absurd h h3
              · exact absurd h h4
              · exact absurd h h5
  obtain ⟨f, hf⟩ := hf
  refine ⟨f, ?_, rfl, by decide⟩
  simp only [mainModel, hp, mainFromConfig, hf]

/-- C1 witness: the empty argument list leaves all five paths missing. -/
theorem C1_missing_required_path_witness :
    ∃ f : ReqField,
      mainModel [] envOk = ⟨1, [.err (requiredMsg f), .usage], none⟩ ∧
      engineCalls [Ev.err (requiredMsg f), Ev.usage] = [] ∧
      (∀ g h : ReqField, requiredMsg g = requiredMsg h → g = h) :=
  C1_missing_required_path [] envOk defaultCfg rfl (Or.inl rfl)

/-! ## Claims C7 and C10 (terminal controller) -/

lemma disableN_not_raw {e : TermEnv} :
    ∀ (n : Nat) (s : TermState), s.raw = false → disableN e n s = (s, []) := by
  intro n
  induction n with
  | zero => intro s h; rfl
  | succ m ih =>
    intro s h
    have hd : disable_raw_mode e s = (s, []) := by
      unfold disable_raw_mode; rw [h]; simp
    simp [disableN, hd, ih s h]

/-- C7 (confirmed): `enable_raw_mode` twice leaves the very same terminal
state as once; `disable_raw_mode` with the raw flag clear is a no-op; and
after a successful enable, any positive number of `disable_raw_mode` calls
performs exactly one `tcsetattr` back to the captured original mode (and,
when that call succeeds, the terminal is the original again). -/
theorem C7_raw_mode_idempotent :
    (∀ (e : TermEnv) (s : TermState),
      (enable_raw_mode e (enable_raw_mode e s).1).1 = (enable_raw_mode e s).1) ∧
    (∀ (e : TermEnv) (s : TermState), s.raw = false →
      disable_raw_mode e s = (s, [])) ∧
    (∀ (e : TermEnv) (s : TermState) (n : Nat), s.raw = false →
      e.ttyOk = true → e.setRawOk = true → 1 ≤ n →
      (disableN e n (enable_raw_mode e s).1).2 = [.tcsetattr s.term] ∧
      (e.setRestoreOk = true →
        (disableN e n (enable_raw_mode e s).1).1.term = s.term)) := by
  refine ⟨?_, ?_, ?_⟩
  · intro e s
    by_cases hr : s.raw = true
    · simp [enable_raw_mode, hr]
    · have hr2 : s.raw = false := eq_false_of_ne_true hr
      by_cases ht : e.ttyOk = true
      · by_cases hs : e.setRawOk = true
        · simp [enable_raw_mode, hr2, ht, hs]
        · simp [enable_raw_mode, hr2, ht, hs]
      · simp [enable_raw_mode, hr2, ht]
  · intro e s h
    unfold disable_raw_mode; rw [h]; simp
  · intro e s n h hty hsr hn
    obtain ⟨m, rfl⟩ := Nat.exists_eq_add_of_le hn
    have he : (enable_raw_mode e s).1 = ⟨true, s.term, rawify s.term⟩ := by
      simp [enable_raw_mode, h, hty, hsr]
    rw [he, Nat.add_comm 1 m]
    by_cases hres : e.setRestoreOk = true
    · have hd : disable_raw_mode e ⟨true, s.term, rawify s.term⟩ =
          (⟨false, s.term, s.term⟩, [.tcsetattr s.term]) := by
        simp [disable_raw_mode, hres]
      have hrest := disableN_not_raw (e := e) m ⟨false, s.term, s.term⟩ rfl
      constructor
      · simp [disableN, hd, hrest]
      · intro _
        simp [disableN, hd, hrest]
    · have hres2 : e.setRestoreOk = false := eq_false_of_ne_true hres
      have hd : disable_raw_mode e ⟨true, s.term, rawify s.term⟩ =
          (⟨false, s.term, rawify s.term⟩, [.tcsetattr s.term]) := by
        simp [disable_raw_mode, hres2]
      have hrest := disableN_not_raw (e := e) m ⟨false, s.term, rawify s.term⟩ rfl
      constructor
      · simp [disableN, hd, hrest]
      · intro hcon
        exact absurd hcon hres

/-- C7 witness at a concrete terminal state and environment. -/
theorem C7_raw_mode_idempotent_witness :
    disable_raw_mode ⟨true, true, true⟩ ⟨false, ⟨1, 2, 3, 4⟩, ⟨5, 6, 7, 8⟩⟩ =
      (⟨false, ⟨1, 2, 3, 4⟩, ⟨5, 6, 7, 8⟩⟩, []) ∧
    (disableN ⟨true, true, true⟩ 2
      (enable_raw_mode ⟨true, true, true⟩
        ⟨false, ⟨1, 2, 3, 4⟩, ⟨5, 6, 7, 8⟩⟩).1).2 = [.tcsetattr ⟨5, 6, 7, 8⟩] := by
  constructor
  · exact C7_raw_mode_idempotent.2.1 ⟨true, true, true⟩
      ⟨false, ⟨1, 2, 3, 4⟩, ⟨5, 6, 7, 8⟩⟩ rfl
  · exact (C7_raw_mode_idempotent.2.2 ⟨true, true, true⟩
      ⟨false, ⟨1, 2, 3, 4⟩, ⟨5, 6, 7, 8⟩⟩ 2 rfl rfl rfl (by decide)).1

/-- C10 (confirmed): while raw mode is active, a `disable_raw_mode` call
makes exactly one `tcsetattr` attempt and clears the raw flag even when the
restore fails (terminal left unchanged); every later call is a no-op, so at
most one restoration attempt happens per raw-enabled period. -/
theorem C10_flag_cleared_on_failed_restore :
    ∀ (e : TermEnv) (s : TermState) (n : Nat), s.raw = true →
      e.setRestoreOk = false →
      (disable_raw_mode e s).1.raw = false ∧
      (disable_raw_mode e s).2 = [.tcsetattr s.saved] ∧
      (disable_raw_mode e s).1.term = s.term ∧
      disableN e n (disable_raw_mode e s).1 = ((disable_raw_mode e s).1, []) := by
  intro e s n h hres
  have hd : disable_raw_mode e s = ({ s with raw := false }, [.tcsetattr s.saved]) := by
    simp [disable_raw_mode, h, hres]
  rw [hd]
  exact ⟨rfl, rfl, rfl, disableN_not_raw n _ rfl⟩

/-- C10 witness at a concrete state with a failing `tcsetattr`. -/
theorem C10_flag_cleared_on_failed_restore_witness :
    (disable_raw_mode ⟨true, true, false⟩ ⟨true, ⟨1, 2, 3, 4⟩, ⟨5, 6, 7, 8⟩⟩).1.raw
      = false ∧
    (disable_raw_mode ⟨true, true, false⟩ ⟨true, ⟨1, 2, 3, 4⟩, ⟨5, 6, 7, 8⟩⟩).2
      = [.tcsetattr ⟨1, 2, 3, 4⟩] := by
  constructor
  · exact (C10_flag_cleared_on_failed_restore ⟨true, true, false⟩
      ⟨true, ⟨1, 2, 3, 4⟩, ⟨5, 6, 7, 8⟩⟩ 1 rfl rfl).1
  · exact (C10_flag_cleared_on_failed_restore ⟨true, true, false⟩
      ⟨true, ⟨1, 2, 3, 4⟩, ⟨5, 6, 7, 8⟩⟩ 1 rfl rfl).2.1

end Emu

namespace Emu

/-! ## Claim C6 (signal handler) -/

/-- C6: the claim that the handler restores the terminal before the
process's next observable output is false — `signal_handler` prints the
"Received SIGINT" message first and only then calls `disable_raw_mode`.
The rest of the claim does hold at SIGINT (cooperative exit request, no
direct termination). -/
theorem C6_counterexample :
    restoreBeforeOutput (signal_handler .sigint).1 = false ∧
    (signal_handler .sigint).1 =
      [.out "\nReceived SIGINT, requesting exit...\n", .disableRaw,
       .engine .triggerExit] ∧
    (signal_handler .sigint).2 = none := by
  decide

/-- C6 (amended): for every handled signal the handler first prints the
received-signal message and then restores the terminal; on SIGINT it then
requests a cooperative exit and returns to the interrupted code, while
SIGTERM/SIGHUP/SIGQUIT terminate the process with status 1 after the
restore. -/
theorem C6_amended :
    signal_handler .sigint =
      ([.out "\nReceived SIGINT, requesting exit...\n", .disableRaw,
        .engine .triggerExit], none) ∧
    signal_handler .sigterm =
      ([.out "\nReceived SIGTERM, requesting exit...\n", .disableRaw], some 1) ∧
    signal_handler .sighup =
      ([.out "\nReceived SIGHUP, requesting exit...\n", .disableRaw], some 1) ∧
    signal_handler .sigquit =
      ([.out "\nReceived SIGQUIT, requesting exit...\n", .disableRaw], some 1) := by
  decide

/-! ## Claim C5 (allocation failures) -/

/-- C5: the claim is false for the UART scratch buffer — when its `malloc`
fails, `free_run` returns without stepping the engine once (terminal
restored), but `main` then proceeds through normal cleanup and the process
exits 0, not 1. -/
theorem C5_counterexample :
    (mainModel optsAll envUartFail).exitCode = 0 ∧
    (mainModel optsAll envUartFail).exitCode ≠ 1 ∧
    ((mainModel optsAll envUartFail).fr.map FRResult.steps) = some 0 ∧
    ((mainModel optsAll envUartFail).fr.map FRResult.reason) = some .allocFail := by
  decide

/-- C5 (amended): engine backing-memory allocation failure is fatal with
exit code 1 before `emulator_init`; UART scratch-buffer allocation failure
aborts the run loop with zero engine steps and the terminal restored, but
the process then runs normal cleanup and exits 0. -/
theorem C5_amended :
    (∀ (opts : List COpt) (env : Env) (cfg : CEmulatorConfig),
      parseOpts opts defaultCfg = .ok cfg → firstMissing cfg = none →
      env.engineAllocOk = false →
      mainModel opts env =
        ⟨1, [.engine .getSize, .engine .getAlignment,
             .err "Failed to allocate memory\n"], none⟩) ∧
    (∀ env : Env, env.uartAllocOk = false →
      freeRun env =
        ⟨[.out "Running emulator in normal mode...\n",
          .out "Console input enabled - type characters to send to UART RX\n",
          .enableRaw, .err "Failed to allocate UART buffer\n", .disableRaw],
         [], [], 0, .allocFail⟩) ∧
    (∀ (opts : List COpt) (env : Env) (cfg : CEmulatorConfig),
      parseOpts opts defaultCfg = .ok cfg → firstMissing cfg = none →
      env.engineAllocOk = true → env.initOk = true → cfg.i3c_port = 0 →
      env.isGdb = false → env.uartAllocOk = false →
      (mainModel opts env).exitCode = 0 ∧
      (mainModel opts env).fr = some (freeRun env)) := by
  refine ⟨?_, ?_, ?_⟩
  · intro opts env cfg hp hm ha
    simp [mainModel, hp, mainFromConfig, hm, ha]
  · intro env h
    simp [freeRun, h]
  · intro opts env cfg hp hm ha hi hrev hgdb huart
    constructor
    · simp [mainModel, hp, mainFromConfig, hm, ha, hi, hrev, hgdb]
    · simp [mainModel, hp, mainFromConfig, hm, ha, hi, hrev, hgdb]

/-- C5 amended-theorem witness at concrete inputs. -/
theorem C5_amended_witness :
    mainModel optsAll { engineAllocOk := false } =
      ⟨1, [.engine .getSize, .engine .getAlignment,
           .err "Failed to allocate memory\n"], none⟩ ∧
    (mainModel optsAll envUartFail).exitCode = 0 ∧
    (mainModel optsAll envUartFail).fr = some (freeRun envUartFail) := by
  refine ⟨?_, ?_, ?_⟩
  · exact C5_amended.1 optsAll { engineAllocOk := false } cfgAll rfl (by decide) rfl
  · exact (C5_amended.2.2 optsAll envUartFail cfgAll rfl (by decide) rfl rfl rfl
      rfl rfl).1
  · exact (C5_amended.2.2 optsAll envUartFail cfgAll rfl (by decide) rfl rfl rfl
      rfl rfl).2

/-! ## Claim C9 (failed GDB session) -/

/-- C9 (confirmed): when the blocking GDB-server call fails, the failure is
only reported as a message — `main` still performs the final UART drain,
restores the terminal, destroys the engine exactly once, and exits 0. -/
theorem C9_gdb_failure_message_only :
    ∀ (opts : List COpt) (env : Env) (cfg : CEmulatorConfig),
      parseOpts opts defaultCfg = .ok cfg → firstMissing cfg = none →
      env.engineAllocOk = true → env.initOk = true →
      (cfg.i3c_port = 0 ∨ env.i3cOk = true) →
      env.isGdb = true → env.gdbOk = false →
      (mainModel opts env).exitCode = 0 ∧
      Ev.out "GDB session failed with error\n" ∈ (mainModel opts env).events ∧
      Ev.engine .runGdbServer ∈ (mainModel opts env).events ∧
      Ev.engine .drainUart ∈ (mainModel opts env).events ∧
      Ev.disableRaw ∈ (mainModel opts env).events ∧
      (engineCalls (mainModel opts env).events).count .destroy = 1 := by
  intro opts env cfg hp hm h1 h2 hi hg hgf
  by_cases hi0 : cfg.i3c_port = 0
  · by_cases hf : env.finalOut.isEmpty = true
    · simp [mainModel, hp, mainFromConfig, hm, h1, h2, hg, hgf, hi0, hf,
        engineCalls, List.count_cons, List.count_append]
    · have hf2 : env.finalOut.isEmpty = false := eq_false_of_ne_true hf
      simp [mainModel, hp, mainFromConfig, hm, h1, h2, hg, hgf, hi0, hf2,
        engineCalls, List.count_cons, List.count_append]
  · have hiok : env.i3cOk = true := by
      rcases hi with h | h
      · exact absurd h hi0
      · exact h
    by_cases hf : env.finalOut.isEmpty = true
    · simp [mainModel, hp, mainFromConfig, hm, h1, h2, hg, hgf, hi0, hiok, hf,
        engineCalls, List.count_cons, List.count_append]
    · have hf2 : env.finalOut.isEmpty = false := eq_false_of_ne_true hf
      simp [mainModel, hp, mainFromConfig, hm, h1, h2, hg, hgf, hi0, hiok, hf2,
        engineCalls, List.count_cons, List.count_append]

/-- C9 witness: concrete run in GDB mode with a failing session. -/
theorem C9_gdb_failure_message_only_witness :
    (mainModel optsAll envGdbFail).exitCode = 0 ∧
    Ev.out "GDB session failed with error\n" ∈ (mainModel optsAll envGdbFail).events ∧
    (engineCalls (mainModel optsAll envGdbFail).events).count .destroy = 1 := by
  have h := C9_gdb_failure_message_only optsAll envGdbFail cfgAll rfl (by decide)
    rfl rfl (Or.inl rfl) rfl rfl
  exact ⟨h.1, h.2.1, h.2.2.2.2.2⟩

end Emu

namespace Emu

/-! ## Claim C8 (unready console characters are dropped, never buffered) -/

lemma pollStep_sent (env : Env) (iter k : Nat) :
    (pollStep env iter k).sent = (pollStep env iter k).consumed.filterMap (sendOf env) := by
  cases henv : env.inputs k with
  | none => simp [pollStep, henv]
  | some c =>
    by_cases h3 : c = 3
    · subst h3; simp [pollStep, henv, sendOf]
    · by_cases hr : env.rxReady iter = true
      · simp [pollStep, henv, sendOf, h3, hr]
      · have hr2 : env.rxReady iter = false := eq_false_of_ne_true hr
        simp [pollStep, henv, sendOf, h3, hr2]

lemma freeRunLoop_sent_eq (env : Env) :
    ∀ (fuel iter stepCount pollIdx : Nat),
      (freeRunLoop env fuel iter stepCount pollIdx).sent =
        (freeRunLoop env fuel iter stepCount pollIdx).consumed.filterMap
          (sendOf env) := by
  intro fuel
  induction fuel with
  | zero => intro iter sc k; rfl
  | succ n ih =>
    intro iter sc k
    unfold freeRunLoop
    simp only []
    by_cases hp : sc % 100 = 0
    · rw [if_pos hp]
      have hps := pollStep_sent env iter k
      by_cases hbrk : (pollStep env iter k).brk = true
      · rw [if_pos hbrk]
        exact hps
      · rw [if_neg hbrk]
        cases ha : env.actions iter <;>
          simp only [List.filterMap_append, hps, ih]
    · rw [if_neg hp]
      cases ha : env.actions iter <;>
        simp [List.filterMap_append, ih]

/-- C8 (confirmed): in the free-run loop, the characters forwarded to the
engine UART are exactly the characters read at iterations where the engine
reported rx-ready (Ctrl-C excluded, backspace normalized) — so a character
read while the engine is not ready is dropped on the spot: nothing is ever
sent at that iteration or any later one on its behalf, and no buffering
exists. -/
theorem C8_unready_char_dropped :
    ∀ (env : Env) (fuel iter stepCount pollIdx : Nat),
      (freeRunLoop env fuel iter stepCount pollIdx).sent =
        (freeRunLoop env fuel iter stepCount pollIdx).consumed.filterMap
          (sendOf env) ∧
      (∀ p ∈ (freeRunLoop env fuel iter stepCount pollIdx).consumed,
        p.2 ≠ 3 → env.rxReady p.1 = false →
        ∀ q ∈ (freeRunLoop env fuel iter stepCount pollIdx).sent, q.1 ≠ p.1) := by
  intro env fuel iter sc k
  refine ⟨freeRunLoop_sent_eq env fuel iter sc k, ?_⟩
  intro p hpmem hp3 hpnr q hq heq
  rw [freeRunLoop_sent_eq env fuel iter sc k] at hq
  obtain ⟨p2, hp2mem, hp2send⟩ := List.mem_filterMap.mp hq
  unfold sendOf at hp2send
  by_cases h3 : p2.2 = 3
  · rw [if_pos h3] at hp2send
    exact Option.noConfusion hp2send
  · rw [if_neg h3] at hp2send
    by_cases hr : env.rxReady p2.1 = true
    · rw [if_pos hr] at hp2send
      injection hp2send with h2
      have hq1 : q.1 = p2.1 := by rw [← h2]
      rw [heq] at hq1
      rw [← hq1] at hr
      rw [hpnr] at hr
      exact Bool.noConfusion hr
    · rw [if_neg hr] at hp2send
      exact Option.noConfusion hp2send

/-- C8 witness: a pending byte read at a never-rx-ready iteration appears in
`consumed` but nothing is ever sent. -/
theorem C8_unready_char_dropped_witness :
    (freeRunLoop envDrop 2 0 0 0).sent =
      (freeRunLoop envDrop 2 0 0 0).consumed.filterMap (sendOf envDrop) ∧
    (freeRunLoop envDrop 2 0 0 0).consumed = [(0, 65)] ∧
    (freeRunLoop envDrop 2 0 0 0).sent = [] := by
  refine ⟨(C8_unready_char_dropped envDrop 2 0 0 0).1, by decide, by decide⟩

end Emu
